import Mathlib

/-!
Verification of the caddymultipart repository: a Caddy middleware that
classifies incoming requests as multipart/form-data submissions, inspects
the multipart body to list uploaded file names, reports the outcome to a
sink, and forwards the request to the next handler.

The repository has two variants of the handler:
* `Middleware` (multipart_inspect.go): writes to a configured stream,
  parses a clone of the request;
* `MultipartInspector` (the second source file): logs via a `log.Logger`,
  parses the original request directly.

The Go standard-library pieces the code relies on (`mime.ParseMediaType`,
`mime/multipart` parsing and `Reader.ReadForm`, `http.Request.Clone`,
`http.Request.ParseMultipartForm`) are embedded below, faithful to the
Go sources at the granularity the middleware exercises them: bodies are
modelled as lists of CRLF-separated lines, boundary lines are matched
exactly (transport padding is not modelled), quoted-string parameter
values do not model backslash escapes, and RFC 2231 parameter
continuations are not modelled.  Go map iteration order is unspecified;
the model fixes the first-insertion order for the field-name map, which
is the order the specification describes.
-/

/-! ### Model of mime.ParseMediaType (mime/mediatype.go) -/

/-- Lower-case every character of a string (model of strings.ToLower for
the ASCII inputs at hand). -/
def lowerStr (s : String) : String := String.mk (s.data.map Char.toLower)

/-- Whitespace trimmed from both ends (model of strings.TrimSpace /
textproto value trimming), defined structurally so the kernel can
evaluate it. -/
def trimStr (s : String) : String :=
  String.mk (((s.data.dropWhile Char.isWhitespace).reverse.dropWhile Char.isWhitespace).reverse)

/-- Go mime: tspecials characters that terminate a token. -/
def isTSpecialChar (c : Char) : Bool := "()<>@,;:\\\"/[]?=".data.contains c

/-- Go mime: isTokenChar. -/
def isTokenChar (c : Char) : Bool :=
  c.toNat > 0x20 && c.toNat < 0x7f && !(isTSpecialChar c)

/-- Go mime: consumeToken — longest token-character run and the rest. -/
def consumeToken (s : List Char) : String × List Char :=
  let t := s.takeWhile isTokenChar
  (String.mk t, s.drop t.length)

/-- Go mime: checkMediaTypeDisposition — the (already lower-cased,
trimmed) media type must be a token or token/token.  Modelled as a Bool
where Go returns an error. -/
def checkMediaTypeDisposition (s : String) : Bool :=
  let (typ, rest) := consumeToken s.data
  if typ = "" then false
  else
    match rest with
    | [] => true
    | '/' :: r2 =>
      let (sub, r3) := consumeToken r2
      decide (sub ≠ "") && r3.isEmpty
    | _ => false

/-- Go mime: consumeValue — a token, or a double-quoted string
(backslash escapes are not modelled).  Returns none where Go signals
failure by returning the input unchanged with an empty value. -/
def consumeValue (s : List Char) : Option (String × List Char) :=
  match s with
  | '"' :: rest =>
    let v := rest.takeWhile (fun c => c ≠ '"')
    (match rest.drop v.length with
     | '"' :: r2 => some (String.mk v, r2)
     | _ => none)
  | _ =>
    let (t, r) := consumeToken s
    if t = "" then none else some (t, r)

/-- Association-list lookup used for parameter maps. -/
def lookupParam (ps : List (String × String)) (key : String) : Option String :=
  match ps.find? (fun kv => kv.1 == key) with
  | some kv => some kv.2
  | none => none

/-- Go mime: consumeMediaParam — a `;`, optional space, token key
(lower-cased), `=`, value.  `none` models Go returning an empty key. -/
def consumeMediaParam (s : List Char) : Option (String × String × List Char) :=
  match s with
  | ';' :: r0 =>
    let r1 := r0.dropWhile Char.isWhitespace
    let (key0, r2) := consumeToken r1
    if key0 = "" then none
    else
      let r3 := r2.dropWhile Char.isWhitespace
      (match r3 with
       | '=' :: r4 =>
         let r5 := r4.dropWhile Char.isWhitespace
         (match consumeValue r5 with
          | some (val, r6) => some (lowerStr key0, val, r6)
          | none => none)
       | _ => none)
  | _ => none

/-- Go mime.ParseMediaType parameter loop.  A duplicate key with a
different value and any malformed parameter are errors; a trailing bare
semicolon is tolerated.  Fuel bounds the recursion; every iteration
consumes at least the leading `;`, so the caller supplies enough fuel. -/
def parseParamsLoop : Nat → List Char → List (String × String) →
    Option (List (String × String))
  | 0, _, _ => none
  | fuel + 1, s, acc =>
    let s1 := s.dropWhile Char.isWhitespace
    if s1.isEmpty then some acc.reverse
    else
      match consumeMediaParam s1 with
      | none =>
        if trimStr (String.mk s1) = ";" then some acc.reverse else none
      | some (k, val, rest) =>
        match lookupParam acc k with
        | some v0 =>
          if v0 = val then parseParamsLoop fuel rest acc else none
        | none => parseParamsLoop fuel rest ((k, val) :: acc)

/-- Model of Go mime.ParseMediaType: the primary media type is the part
before the first `;`, trimmed and lower-cased and validated as
token(/token); the remainder is a `;`-separated parameter list.  `none`
models a non-nil error. -/
def parseMediaType (v : String) : Option (String × List (String × String)) :=
  let base := v.data.takeWhile (fun c => c ≠ ';')
  let mediaType := lowerStr (trimStr (String.mk base))
  if checkMediaTypeDisposition mediaType then
    match parseParamsLoop (v.length + 1) (v.data.drop base.length) [] with
    | some ps => some (mediaType, ps)
    | none => none
  else none

/-! ### Model of mime/multipart: part framing and Reader.ReadForm -/

/-- Errors produced by the embedded Go code, with their rendered
messages (`GoError.msg` models err.Error()). -/
inductive GoError where
  | notMultipart
  | missingBoundary
  | messageTooLarge
  | unexpectedEOF
  | wrap (outer : String) (inner : GoError)
  | plain (s : String)
deriving DecidableEq, Repr

/-- Rendered error text, as fmt's %v would show it. -/
def GoError.msg : GoError → String
  | .notMultipart => "request Content-Type isn\x27t multipart/form-data"
  | .missingBoundary => "no multipart boundary param in Content-Type"
  | .messageTooLarge => "multipart: message too large"
  | .unexpectedEOF => "multipart: NextPart: EOF"
  | .wrap outer inner => outer ++ ": " ++ inner.msg
  | .plain s => s

/-- Result of a fallible Go call: a value or a non-nil error. -/
inductive GoResult (α : Type) where
  | ok (val : α)
  | err (e : GoError)
deriving DecidableEq, Repr

/-- Whether a Go call returned a nil error. -/
def GoResult.isOk {α : Type} : GoResult α → Bool
  | .ok _ => true
  | .err _ => false

/-- One multipart part as framed on the wire: its header lines (up to
the blank separator line) and its content lines. -/
structure RawPart where
  headerLines : List String
  contentLines : List String
deriving DecidableEq, Repr

/-- Header lines before the first blank line, and the remainder after
that blank line; `none` when the stream ends before a blank line. -/
def takeUntilBlank : List String → Option (List String × List String)
  | [] => none
  | l :: rest =>
    if l = "" then some ([], rest)
    else
      match takeUntilBlank rest with
      | some (hs, r) => some (l :: hs, r)
      | none => none

/-- Content lines up to the next boundary delimiter line.  Returns the
content, whether the delimiter was the closing `--boundary--`, and the
remainder after the delimiter; `none` when the stream ends first. -/
def takeContent (dashBoundary : String) : List String → Option (List String × Bool × List String)
  | [] => none
  | l :: rest =>
    if l = dashBoundary then some ([], false, rest)
    else if l = dashBoundary ++ "--" then some ([], true, rest)
    else
      match takeContent dashBoundary rest with
      | some (c, fin, r) => some (l :: c, fin, r)
      | none => none

/-- Parts after the opening boundary delimiter.  Each iteration consumes
at least the part's blank separator line and a boundary line, so fuel
equal to the number of remaining lines suffices. -/
def parsePartsLoop (dashBoundary : String) : Nat → List String → Option (List RawPart)
  | 0, _ => none
  | fuel + 1, ls =>
    match takeUntilBlank ls with
    | none => none
    | some (hs, r1) =>
      match takeContent dashBoundary r1 with
      | none => none
      | some (content, fin, r2) =>
        if fin then some [⟨hs, content⟩]
        else
          match parsePartsLoop dashBoundary fuel r2 with
          | some ps => some (⟨hs, content⟩ :: ps)
          | none => none

/-- Location of the first boundary delimiter line: either an opening
delimiter (parts follow) or an immediate closing delimiter (empty
form). -/
inductive BoundaryStart where
  | atPart (rest : List String)
  | closedForm
deriving Repr

/-- Skip the preamble up to the first boundary delimiter line, as Go's
multipart reader does; `none` when the stream ends without one. -/
def skipPreamble (dashBoundary : String) : List String → Option BoundaryStart
  | [] => none
  | l :: rest =>
    if l = dashBoundary then some (.atPart rest)
    else if l = dashBoundary ++ "--" then some .closedForm
    else skipPreamble dashBoundary rest

/-- Split a multipart body (as CRLF-separated lines) into its raw parts
using the declared boundary.  `none` models the framing errors Go's
part reader reports (no boundary delimiter found, truncated stream). -/
def parseParts (boundary : String) (ls : List String) : Option (List RawPart) :=
  let dashBoundary := "--" ++ boundary
  match skipPreamble dashBoundary ls with
  | none => none
  | some .closedForm => some []
  | some (.atPart rest) => parsePartsLoop dashBoundary (rest.length + 1) rest

/-- Value of a named part header (key compared case-insensitively, value
trimmed); empty string when the header is absent, as Go's MIMEHeader.Get
returns. -/
def findPartHeader (hs : List String) (key : String) : String :=
  match hs.findSome? (fun l =>
    let pre := l.data.takeWhile (fun c => c ≠ ':')
    match l.data.drop pre.length with
    | ':' :: rest =>
      if lowerStr (String.mk pre) = lowerStr key then some (trimStr (String.mk rest))
      else none
    | _ => none) with
  | some v => v
  | none => ""

/-- Parsed Content-Disposition of a part (Go: Part.parseContentDisposition). -/
def RawPart.dispo (p : RawPart) : Option (String × List (String × String)) :=
  parseMediaType (findPartHeader p.headerLines "Content-Disposition")

/-- Go multipart.Part.FormName: the `name` parameter, only when the
disposition is `form-data`; empty string otherwise. -/
def RawPart.formFieldName (p : RawPart) : String :=
  match p.dispo with
  | some (d, ps) => if d = "form-data" then (lookupParam ps "name").getD "" else ""
  | none => ""

/-- Go multipart.Part.FileName: the `filename` parameter of the
disposition, regardless of the disposition word; empty when absent. -/
def RawPart.declaredFilename (p : RawPart) : String :=
  match p.dispo with
  | some (_, ps) => (lookupParam ps "filename").getD ""
  | none => ""

/-- Byte size of a part's content when its lines are re-joined with
CRLF. -/
def contentBytes (content : List String) : Nat :=
  match content with
  | [] => 0
  | _ => (content.map String.length).sum + 2 * (content.length - 1)

/-- Content lines re-joined with CRLF, the string stored for a value
field. -/
def joinLines (ls : List String) : String := String.intercalate "\x0d\n" ls

/-- A stored file part header: its declared filename and content size
(Go keeps the content in memory or a temp file; only name and size are
observable here). -/
structure FileHeader where
  filename : String
  size : Nat
deriving DecidableEq, Repr

/-- The parsed multipart form (Go multipart.Form): field name to value
strings, and field name to file headers.  Go uses hash maps with
unspecified iteration order; the model fixes first-insertion order. -/
structure MultipartForm where
  valueFields : List (String × List String)
  fileFields : List (String × List FileHeader)
deriving DecidableEq, Repr

/-- Insertion-ordered map update: append to an existing key's sequence
or add the key at the end. -/
def addEntry {α : Type} (m : List (String × List α)) (k : String) (v : α) :
    List (String × List α) :=
  match m with
  | [] => [(k, [v])]
  | (k0, vs) :: rest =>
    if k0 = k then (k0, vs ++ [v]) :: rest else (k0, vs) :: addEntry rest k v

/-- Go multipart.Reader.ReadForm loop over the parts.  A part without a
form name is skipped; a part without a filename is a value field whose
bytes draw down the non-file quota (exhausting it is
ErrMessageTooLarge); a part with a filename is a file field, whose bytes
beyond the memory limit are spooled to a temp file and never cause an
error. -/
def readFormLoop : List RawPart → Nat → MultipartForm → GoResult MultipartForm
  | [], _, acc => .ok acc
  | p :: rest, quota, acc =>
    let name := p.formFieldName
    if name = "" then readFormLoop rest quota acc
    else
      let filename := p.declaredFilename
      if filename = "" then
        let n := contentBytes p.contentLines
        if quota < n then .err .messageTooLarge
        else
          readFormLoop rest (quota - n)
            { acc with valueFields := addEntry acc.valueFields name (joinLines p.contentLines) }
      else
        readFormLoop rest quota
          { acc with fileFields := addEntry acc.fileFields name ⟨filename, contentBytes p.contentLines⟩ }

/-- Go multipart.Reader.ReadForm: non-file field bytes are limited to
maxMemory plus a reserved extra 10 MiB, as in the Go source. -/
def readForm (maxMemory : Nat) (parts : List RawPart) : GoResult MultipartForm :=
  readFormLoop parts (maxMemory + (10 <<< 20)) ⟨[], []⟩

/-! ### Model of net/http: requests, bodies, ParseMultipartForm -/

/-- The request body: a single-consumption stream of CRLF-separated
lines.  `pos` counts lines already consumed; `closed` records that
Body.Close was called.  Go's http.Request.Clone copies the Body field as
the same reader, so the one `Body` value passed alongside a request and
its clone models that shared stream. -/
structure Body where
  lines : List String
  pos : Nat
  closed : Bool
deriving DecidableEq, Repr

/-- A fresh, unread request body. -/
def freshBody (ls : List String) : Body := ⟨ls, 0, false⟩

/-- Body.Close on the shared stream. -/
def closeBody (b : Body) : Body := { b with closed := true }

/-- The next handler can still read the whole body exactly as the
client sent it: nothing consumed, stream not closed. -/
def bodyFullyReadable (b : Body) : Bool := b.pos == 0 && !b.closed

/-- An incoming HTTP request as the middleware sees it: method, remote
address, header mapping, and the MultipartForm pointer that
ParseMultipartForm populates (`none` is Go's nil). -/
structure Request where
  method : String
  remoteAddr : String
  header : List (String × String)
  multipartForm : Option MultipartForm
deriving DecidableEq, Repr

/-- Go http.Header.Get: first value under the case-insensitive key,
empty string when absent. -/
def headerGet (h : List (String × String)) (key : String) : String :=
  match h.find? (fun kv => lowerStr kv.1 == lowerStr key) with
  | some kv => kv.2
  | none => ""

/-- isMultipart from the repository (identical in both source files):
Content-Type must be present, parse as a media type, and have primary
type multipart/form-data. -/
def isMultipart (r : Request) : Bool :=
  let contentType := headerGet r.header "Content-Type"
  if contentType = "" then false
  else
    match parseMediaType contentType with
    | none => false
    | some (mediaType, _) => mediaType == "multipart/form-data"

/-- Go http.Request.multipartReader: the boundary from the Content-Type
header, or ErrNotMultipart / ErrMissingBoundary. -/
def multipartReader (r : Request) : GoResult String :=
  let v := headerGet r.header "Content-Type"
  if v = "" then .err .notMultipart
  else
    match parseMediaType v with
    | none => .err .notMultipart
    | some (d, ps) =>
      if d = "multipart/form-data" then
        match lookupParam ps "boundary" with
        | some bd => .ok bd
        | none => .err .missingBoundary
      else .err .notMultipart

/-- Result of ParseMultipartForm: the (possibly mutated) request, the
(possibly consumed) shared body stream, and the returned error. -/
structure ParseMPF where
  req : Request
  body : Body
  err : Option GoError
deriving DecidableEq, Repr

/-- The body stream after a parse attempt read it to its end. -/
def consumedBody (b : Body) : Body := ⟨b.lines, b.lines.length, b.closed⟩

/-- Go http.Request.ParseMultipartForm: returns nil at once when the
form was already parsed; otherwise obtains the boundary, reads the rest
of the body stream (consuming it), splits it into parts and builds the
form with ReadForm, storing it on the request.  ParseForm, which this
method calls first, reads no body for a multipart content type and is
modelled as a no-op. -/
def parseMultipartForm (maxMemory : Nat) (r : Request) (b : Body) : ParseMPF :=
  if r.multipartForm.isSome then ⟨r, b, none⟩
  else
    match multipartReader r with
    | .err e => ⟨r, b, some e⟩
    | .ok boundary =>
      match parseParts boundary (b.lines.drop b.pos) with
      | none => ⟨r, consumedBody b, some .unexpectedEOF⟩
      | some parts =>
        match readForm maxMemory parts with
        | .err e => ⟨r, consumedBody b, some e⟩
        | .ok f => ⟨{ r with multipartForm := some f }, consumedBody b, none⟩

/-- Filenames collected by both inspect functions: iterate the form's
file map and append each header's Filename. -/
def formFileNames (f : MultipartForm) : List String :=
  (f.fileFields.map (fun kv => kv.2.map FileHeader.filename)).flatten

/-- Outcome of an inspectMultipartForm call: the (nil, err) pair Go
returns on failure, the filename list on success, or a runtime panic
from dereferencing a nil MultipartForm pointer. -/
inductive InspectOutcome where
  | ok (names : List String)
  | fail (e : GoError)
  | panicNilDeref
deriving DecidableEq, Repr

/-! ### Variant A: Middleware (multipart_inspect.go) -/

/-- The sink written by the stream variant. -/
inductive Sink where
  | stdoutSink
  | stderrSink
deriving DecidableEq, Repr

/-- The stream variant's module struct: the configured output name and
the writer Provision installs. -/
structure Middleware where
  output : String
  w : Option Sink
deriving DecidableEq, Repr

/-- Middleware.Provision: only the values "stdout" and "stderr" are
accepted; anything else is the error "an output stream is required". -/
def Middleware.provision (m : Middleware) : GoResult Middleware :=
  match m.output with
  | "stdout" => .ok { m with w := some .stdoutSink }
  | "stderr" => .ok { m with w := some .stderrSink }
  | _ => .err (.plain "an output stream is required")

/-- Middleware.Validate: fails when no writer was installed. -/
def Middleware.validate (m : Middleware) : GoResult Unit :=
  match m.w with
  | none => .err (.plain "no writer")
  | some _ => .ok ()

/-- Middleware.UnmarshalCaddyfile: one required positional argument,
stored as Output; missing argument is d.ArgErr(). -/
def Middleware.unmarshalCaddyfile (args : List String) : GoResult Middleware :=
  match args with
  | [] => .err (.plain "wrong argument count or unexpected line ending")
  | a :: _ => .ok { output := a, w := none }

/-- The 99 MiB memory limit the clone variant passes to
ParseMultipartForm (Go: 99 << 20). -/
def maxMemoryA : Nat := 99 <<< 20

/-- Middleware.inspectMultipartForm: clones the request (r2 shares the
original body stream, which the deferred r2.Body.Close() closes on every
path), parses the clone with a 99 MiB limit, then — on success — walks
the ORIGINAL request's MultipartForm.File.  The original was never
parsed, so when `r.multipartForm` is nil that field access is a nil
dereference. -/
def Middleware.inspectMultipartForm (r : Request) (b : Body) : InspectOutcome × Body :=
  let p := parseMultipartForm maxMemoryA r b
  match p.err with
  | some e => (.fail (.wrap "error parsing multipart form" e), closeBody p.body)
  | none =>
    match r.multipartForm with
    | some f => (.ok (formFileNames f), closeBody p.body)
    | none => (.panicNilDeref, closeBody p.body)

/-- fmt %v rendering of a Go string slice. -/
def goShowStrings (xs : List String) : String := "[" ++ String.intercalate " " xs ++ "]"

/-- Observable outcome of one Middleware.ServeHTTP call: everything
written to the configured sink, whether the inspector ran, the
request/body passed to the next handler (none when it was not called),
and whether the call panicked. -/
structure OutA where
  sinkOut : String
  inspected : Bool
  nextCalledWith : Option (Request × Body)
  panicked : Bool
deriving DecidableEq, Repr

/-- Middleware.ServeHTTP: writes the remote address and a "." line to
the sink for EVERY request, inspects multipart POSTs (logging the error
or the filename list), then calls the next handler with the original
request.  A panic in the inspector propagates before next is called. -/
def Middleware.serveHTTP (r : Request) (b : Body) : OutA :=
  let base := r.remoteAddr ++ ".\n"
  if r.method = "POST" ∧ isMultipart r = true then
    match Middleware.inspectMultipartForm r b with
    | (.panicNilDeref, _) =>
      { sinkOut := base, inspected := true, nextCalledWith := none, panicked := true }
    | (.fail e, b2) =>
      { sinkOut := base ++ "Error inspecting multipart form: " ++ e.msg ++ "\n",
        inspected := true, nextCalledWith := some (r, b2), panicked := false }
    | (.ok fs, b2) =>
      { sinkOut := base ++ "Uploaded files: " ++ goShowStrings fs ++ "\n",
        inspected := true, nextCalledWith := some (r, b2), panicked := false }
  else
    { sinkOut := base, inspected := false, nextCalledWith := some (r, b), panicked := false }

/-! ### Variant B: MultipartInspector (second source file) -/

/-- Where the log-file variant's logger writes. -/
inductive LoggerTarget where
  | toStderr
  | toFile (path : String)
deriving DecidableEq, Repr

/-- The log-file variant's module struct: the optional next handler (an
opaque RoundTripper), the configured log file, and the logger Provision
installs. -/
structure MultipartInspector where
  next : Option Unit
  logFile : String
  logger : Option LoggerTarget
deriving DecidableEq, Repr

/-- MultipartInspector.Provision: opens the configured log file (the
`openOk` argument models whether os.OpenFile succeeds) or falls back to
stderr.  The next handler is not checked. -/
def MultipartInspector.provision (m : MultipartInspector) (openOk : Bool) :
    GoResult MultipartInspector :=
  if m.logFile ≠ "" then
    if openOk then .ok { m with logger := some (.toFile m.logFile) }
    else .err (.wrap "opening log file" (.plain "open failed"))
  else .ok { m with logger := some .toStderr }

/-- MultipartInspector.UnmarshalCaddyfile body: the block's
subdirectives in order, each with its argument list.  Only `log_file`
with exactly one argument is recognized. -/
def MultipartInspector.unmarshalCaddyfile :
    List (String × List String) → MultipartInspector → GoResult MultipartInspector
  | [], m => .ok m
  | (k, args) :: rest, m =>
    if k = "log_file" then
      match args with
      | [p] => MultipartInspector.unmarshalCaddyfile rest { m with logFile := p }
      | _ => .err (.plain "wrong argument count or unexpected line ending")
    else .err (.plain ("unknown subdirective \x27" ++ k ++ "\x27"))

/-- The 32 MiB memory limit the direct variant passes to
ParseMultipartForm (Go: 32 << 20). -/
def maxMemoryB : Nat := 32 <<< 20

/-- MultipartInspector.inspectMultipartForm: parses the ORIGINAL request
with a 32 MiB limit (consuming its body) and walks its
MultipartForm.File.  The same nil check as in the clone variant is kept
for faithfulness; after a successful parse the pointer is always
populated. -/
def MultipartInspector.inspectMultipartForm (r : Request) (b : Body) :
    InspectOutcome × Request × Body :=
  let p := parseMultipartForm maxMemoryB r b
  match p.err with
  | some e => (.fail (.wrap "error parsing multipart form" e), p.req, p.body)
  | none =>
    match p.req.multipartForm with
    | some f => (.ok (formFileNames f), p.req, p.body)
    | none => (.panicNilDeref, p.req, p.body)

/-- Observable outcome of one MultipartInspector.ServeHTTP call: the
logger lines, whether the inspector ran, the request/body handed to the
next handler, the status/body written directly when no next handler is
configured, whether the Go function returned nil, and whether it
panicked. -/
structure OutB where
  logLines : List String
  inspected : Bool
  nextCalledWith : Option (Request × Body)
  wroteStatus : Option Nat
  wroteBody : Option String
  retNil : Bool
  panicked : Bool
deriving DecidableEq, Repr

/-- The tail of MultipartInspector.ServeHTTP: call the next handler when
one is configured, otherwise write a 500 response with an explanatory
body and return nil. -/
def finishB (m : MultipartInspector) (lines : List String) (insp : Bool)
    (r : Request) (b : Body) : OutB :=
  match m.next with
  | some _ =>
    { logLines := lines, inspected := insp, nextCalledWith := some (r, b),
      wroteStatus := none, wroteBody := none, retNil := false, panicked := false }
  | none =>
    { logLines := lines, inspected := insp, nextCalledWith := none,
      wroteStatus := some 500, wroteBody := some "Missing next reverse proxy handler",
      retNil := true, panicked := false }

/-- MultipartInspector.ServeHTTP: inspects multipart POSTs (one logger
line for the error or the filename list), then either calls the next
handler or, when none is configured, writes the 500 response. -/
def MultipartInspector.serveHTTP (m : MultipartInspector) (r : Request) (b : Body) : OutB :=
  if r.method = "POST" ∧ isMultipart r = true then
    match MultipartInspector.inspectMultipartForm r b with
    | (.panicNilDeref, _, _) =>
      { logLines := [], inspected := true, nextCalledWith := none,
        wroteStatus := none, wroteBody := none, retNil := false, panicked := true }
    | (.fail e, r2, b2) =>
      finishB m ["Error inspecting multipart form: " ++ e.msg] true r2 b2
    | (.ok fs, r2, b2) =>
      finishB m ["Uploaded files: " ++ goShowStrings fs] true r2 b2
  else finishB m [] false r b

/-! ### Shared concrete inputs used by the theorems below -/

/-- A request carrying the given Content-Type header. -/
def reqWithCT (ct : String) : Request :=
  { method := "POST", remoteAddr := "1.2.3.4:5678",
    header := [("Content-Type", ct)], multipartForm := none }

/-- A well-formed multipart body with two file parts, `a.txt` then
`b.png`, in the same field. -/
def exLines : List String :=
  ["--BOUND",
   "Content-Disposition: form-data; name=\"files\"; filename=\"a.txt\"",
   "",
   "hello",
   "--BOUND",
   "Content-Disposition: form-data; name=\"files\"; filename=\"b.png\"",
   "",
   "world",
   "--BOUND--"]

/-- A multipart POST request matching `exLines`. -/
def exReq : Request := reqWithCT "multipart/form-data; boundary=BOUND"

/-- A well-formed body with file parts in two fields, the first field
occurring again after the second: field insertion order groups it. -/
def exLinesTwoFields : List String :=
  ["--BOUND",
   "Content-Disposition: form-data; name=\"f1\"; filename=\"a.txt\"",
   "",
   "x",
   "--BOUND",
   "Content-Disposition: form-data; name=\"f2\"; filename=\"b.png\"",
   "",
   "y",
   "--BOUND",
   "Content-Disposition: form-data; name=\"f1\"; filename=\"a.txt\"",
   "",
   "z",
   "--BOUND--"]

/-- A well-formed body whose only part declares `filename=""`. -/
def exLinesEmptyFilename : List String :=
  ["--BOUND",
   "Content-Disposition: form-data; name=\"v\"; filename=\"\"",
   "",
   "data",
   "--BOUND--"]

/-- A multipart POST whose declared boundary `XYZ` never occurs in the
body: malformed framing. -/
def malReq : Request := reqWithCT "multipart/form-data; boundary=XYZ"

/-- Body lines matching no `--XYZ` delimiter. -/
def malLines : List String := ["not a boundary"]

/-- A plain GET request (not inspected). -/
def getReq : Request := { exReq with method := "GET" }

/-- A MultipartInspector with a next handler configured. -/
def miWithNext : MultipartInspector := ⟨some (), "", some .toStderr⟩

/-- A MultipartInspector with no next handler configured. -/
def miNoNext : MultipartInspector := ⟨none, "", some .toStderr⟩

/-! ### Helper lemmas -/

/-- When ParseMultipartForm returns a nil error, the request's
MultipartForm pointer is populated. -/
theorem parseMPF_ok_isSome (mm : Nat) (r : Request) (b : Body) :
    (parseMultipartForm mm r b).err = none →
    ((parseMultipartForm mm r b).req).multipartForm.isSome = true := by
  unfold parseMultipartForm
  split
  · next hs => intro _; simpa using hs
  · split
    · intro h; simp at h
    · split
      · intro h; simp at h
      · split
        · intro h; simp at h
        · intro _; simp

/-- The direct-parse variant's inspect never takes the nil-dereference
branch: a successful parse of the original request populates its form. -/
theorem inspectB_no_panic (r : Request) (b : Body) :
    (MultipartInspector.inspectMultipartForm r b).1 ≠ .panicNilDeref := by
  unfold MultipartInspector.inspectMultipartForm
  cases he : (parseMultipartForm maxMemoryB r b).err with
  | some e => simp [he]
  | none =>
    have hs := parseMPF_ok_isSome maxMemoryB r b he
    cases hf : (parseMultipartForm maxMemoryB r b).req.multipartForm with
    | none => rw [hf] at hs; simp at hs
    | some f => simp [he, hf]

/-- With fresh form state, a framing failure makes ParseMultipartForm
consume the stream and return the part-reader error. -/
theorem parseMPF_framing_err (mm : Nat) (r : Request) (b : Body) (boundary : String)
    (hfresh : r.multipartForm = none)
    (hbd : multipartReader r = .ok boundary)
    (hbad : parseParts boundary (b.lines.drop b.pos) = none) :
    parseMultipartForm mm r b = ⟨r, consumedBody b, some .unexpectedEOF⟩ := by
  unfold parseMultipartForm
  simp [hfresh, hbd, hbad]

/-- With fresh form state, a successful parse installs the form built
by ReadForm and consumes the stream. -/
theorem parseMPF_ok_eq (mm : Nat) (r : Request) (b : Body) (boundary : String)
    (parts : List RawPart) (f : MultipartForm)
    (hfresh : r.multipartForm = none)
    (hbd : multipartReader r = .ok boundary)
    (hparts : parseParts boundary (b.lines.drop b.pos) = some parts)
    (hform : readForm mm parts = .ok f) :
    parseMultipartForm mm r b =
      ⟨{ r with multipartForm := some f }, consumedBody b, none⟩ := by
  unfold parseMultipartForm
  simp [hfresh, hbd, hparts, hform]

/-! ### Claim theorems -/

/-- C4: the Classifier isMultipart returns true iff the Content-Type
header is present and non-empty, parses as a media type (boundary and
other parameters included in that parse), and its primary media type —
which ParseMediaType returns trimmed and lower-cased, so the comparison
is case-insensitive — equals multipart/form-data; missing, empty or
unparseable headers and every other media type (multipart/mixed
included) yield false.  The conjuncts after the equivalence check the
concrete cases the claim names. -/
theorem claim4_classifier_iff :
    (∀ r : Request,
      isMultipart r = true ↔
        (headerGet r.header "Content-Type" ≠ "" ∧
         ∃ ps, parseMediaType (headerGet r.header "Content-Type") =
           some ("multipart/form-data", ps)))
    ∧ isMultipart (reqWithCT "MULTIPART/FORM-DATA; boundary=x") = true
    ∧ isMultipart (reqWithCT " multipart/form-data ; boundary=x") = true
    ∧ isMultipart (reqWithCT "multipart/form-data") = true
    ∧ isMultipart (reqWithCT "multipart/mixed; boundary=x") = false
    ∧ isMultipart { method := "POST", remoteAddr := "a", header := [], multipartForm := none } = false
    ∧ isMultipart (reqWithCT "") = false
    ∧ isMultipart (reqWithCT "multipart/") = false := by
  refine ⟨?_, by decide, by decide, by decide, by decide, by decide, by decide, by decide⟩
  intro r
  unfold isMultipart
  by_cases h : headerGet r.header "Content-Type" = ""
  · simp [h]
  · cases hp : parseMediaType (headerGet r.header "Content-Type") with
    | none => simp [h, hp]
    | some pr =>
      obtain ⟨mt, ps⟩ := pr
      simp only [h, if_false, hp, beq_iff_eq, ne_eq, not_false_iff, true_and]
      constructor
      · intro hmt
        exact ⟨ps, by rw [hmt]⟩
      · rintro ⟨ps', heq⟩
        injection heq with heq2
        exact congrArg Prod.fst heq2

/-- C5: when the method is not POST or the Content-Type is not
classified as multipart/form-data, neither variant runs the Inspector:
the request and its untouched body go straight to the next handler
(for the log-file variant, when one is configured). -/
theorem claim5_no_trigger_passthrough :
    (∀ (r : Request) (b : Body), ¬(r.method = "POST" ∧ isMultipart r = true) →
      (Middleware.serveHTTP r b).inspected = false ∧
      (Middleware.serveHTTP r b).nextCalledWith = some (r, b))
    ∧ (∀ (m : MultipartInspector) (r : Request) (b : Body), m.next = some () →
        ¬(r.method = "POST" ∧ isMultipart r = true) →
        (MultipartInspector.serveHTTP m r b).inspected = false ∧
        (MultipartInspector.serveHTTP m r b).nextCalledWith = some (r, b)) := by
  constructor
  · intro r b h
    unfold Middleware.serveHTTP
    rw [if_neg h]
    exact ⟨rfl, rfl⟩
  · intro m r b hnext h
    unfold MultipartInspector.serveHTTP
    rw [if_neg h]
    unfold finishB
    rw [hnext]
    exact ⟨rfl, rfl⟩

/-- Witness for C5 at a concrete GET request: no inspection, original
request and body forwarded. -/
theorem claim5_no_trigger_passthrough_witness :
    ((Middleware.serveHTTP getReq (freshBody exLines)).inspected = false ∧
      (Middleware.serveHTTP getReq (freshBody exLines)).nextCalledWith =
        some (getReq, freshBody exLines)) ∧
    ((MultipartInspector.serveHTTP miWithNext getReq (freshBody exLines)).inspected = false ∧
      (MultipartInspector.serveHTTP miWithNext getReq (freshBody exLines)).nextCalledWith =
        some (getReq, freshBody exLines)) :=
  ⟨claim5_no_trigger_passthrough.1 getReq (freshBody exLines) (by decide),
   claim5_no_trigger_passthrough.2 miWithNext getReq (freshBody exLines) rfl (by decide)⟩

/-- C10: in the clone variant's inspectMultipartForm, whenever
ParseMultipartForm on the clone succeeds and the original request's
MultipartForm pointer is nil (which it is on every ServeHTTP path, since
inspection never parses the original), the success branch dereferences
that nil pointer instead of reading the clone's filenames. -/
theorem claim10_success_branch_nil_deref (r : Request) (b : Body)
    (hFresh : r.multipartForm = none)
    (hOk : (parseMultipartForm maxMemoryA r b).err = none) :
    (Middleware.inspectMultipartForm r b).1 = .panicNilDeref := by
  unfold Middleware.inspectMultipartForm
  simp [hOk, hFresh]

/-- Witness for C10: on the well-formed two-file body the clone parse
succeeds, and the clone variant's inspect panics. -/
theorem claim10_success_branch_nil_deref_witness :
    (Middleware.inspectMultipartForm exReq (freshBody exLines)).1 = .panicNilDeref :=
  claim10_success_branch_nil_deref exReq (freshBody exLines) rfl (by decide)

/-- C3: on a multipart POST whose declared boundary does not match the
body framing, inspectMultipartForm returns the (nil, non-nil wrapped
parse error) pair — `InspectOutcome.fail` carries the wrapped error and
stands for Go's `(nil, err)` — the stage writes the error line to its
sink, and the next handler is still invoked (with a configured next
handler in the log-file variant): inspection failure never rejects the
request. -/
theorem claim3_malformed_framing_logged_and_forwarded
    (m : MultipartInspector) (r : Request) (b : Body) (boundary : String)
    (hm : r.method = "POST") (hmp : isMultipart r = true)
    (hfresh : r.multipartForm = none)
    (hbd : multipartReader r = .ok boundary)
    (hbad : parseParts boundary (b.lines.drop b.pos) = none)
    (hnext : m.next = some ()) :
    (Middleware.inspectMultipartForm r b).1 =
      .fail (.wrap "error parsing multipart form" .unexpectedEOF) ∧
    (MultipartInspector.inspectMultipartForm r b).1 =
      .fail (.wrap "error parsing multipart form" .unexpectedEOF) ∧
    (Middleware.serveHTTP r b).sinkOut =
      r.remoteAddr ++ ".\n" ++ "Error inspecting multipart form: " ++
        (GoError.wrap "error parsing multipart form" .unexpectedEOF).msg ++ "\n" ∧
    (Middleware.serveHTTP r b).nextCalledWith.isSome = true ∧
    (MultipartInspector.serveHTTP m r b).logLines =
      ["Error inspecting multipart form: " ++
        (GoError.wrap "error parsing multipart form" .unexpectedEOF).msg] ∧
    (MultipartInspector.serveHTTP m r b).nextCalledWith.isSome = true := by
  have hpA := parseMPF_framing_err maxMemoryA r b boundary hfresh hbd hbad
  have hpB := parseMPF_framing_err maxMemoryB r b boundary hfresh hbd hbad
  have hinsA : Middleware.inspectMultipartForm r b =
      (.fail (.wrap "error parsing multipart form" .unexpectedEOF),
       closeBody (consumedBody b)) := by
    unfold Middleware.inspectMultipartForm
    rw [hpA]
  have hinsB : MultipartInspector.inspectMultipartForm r b =
      (.fail (.wrap "error parsing multipart form" .unexpectedEOF),
       r, consumedBody b) := by
    unfold MultipartInspector.inspectMultipartForm
    rw [hpB]
  refine ⟨by rw [hinsA], by rw [hinsB], ?_, ?_, ?_, ?_⟩
  · unfold Middleware.serveHTTP
    rw [if_pos ⟨hm, hmp⟩, hinsA]
  · unfold Middleware.serveHTTP
    rw [if_pos ⟨hm, hmp⟩, hinsA]
    rfl
  · unfold MultipartInspector.serveHTTP
    rw [if_pos ⟨hm, hmp⟩, hinsB]
    unfold finishB
    rw [hnext]
  · unfold MultipartInspector.serveHTTP
    rw [if_pos ⟨hm, hmp⟩, hinsB]
    unfold finishB
    rw [hnext]
    rfl

/-- Witness for C3 at the concrete malformed body (declared boundary
XYZ, body without any --XYZ delimiter line). -/
theorem claim3_malformed_framing_logged_and_forwarded_witness :
    (Middleware.inspectMultipartForm malReq (freshBody malLines)).1 =
      .fail (.wrap "error parsing multipart form" .unexpectedEOF) ∧
    (Middleware.serveHTTP malReq (freshBody malLines)).nextCalledWith.isSome = true ∧
    (MultipartInspector.serveHTTP miWithNext malReq (freshBody malLines)).logLines =
      ["Error inspecting multipart form: " ++
        (GoError.wrap "error parsing multipart form" .unexpectedEOF).msg] ∧
    (MultipartInspector.serveHTTP miWithNext malReq (freshBody malLines)).nextCalledWith.isSome = true := by
  have h := claim3_malformed_framing_logged_and_forwarded miWithNext malReq
    (freshBody malLines) "XYZ" rfl (by decide) rfl (by decide) (by decide) rfl
  exact ⟨h.1, h.2.2.2.1, h.2.2.2.2.1, h.2.2.2.2.2⟩

/-- C1: the claimed non-destructiveness does not hold.  At a concrete
well-formed multipart POST: the direct variant calls the next handler
with a body stream that is no longer fully readable (the parse consumed
it); the clone variant panics before the next handler runs (its clone
shares the Body reader, so even its parse consumes the original
stream); and on a malformed body the clone variant hands the next
handler a consumed, closed stream. -/
theorem claim1_next_handler_body_not_readable :
    ((MultipartInspector.serveHTTP miWithNext exReq (freshBody exLines)).nextCalledWith.map
        (fun p => bodyFullyReadable p.2)) = some false
    ∧ (Middleware.serveHTTP exReq (freshBody exLines)).panicked = true
    ∧ ((Middleware.serveHTTP malReq (freshBody malLines)).nextCalledWith.map
        (fun p => bodyFullyReadable p.2)) = some false
    ∧ ((Middleware.serveHTTP malReq (freshBody malLines)).nextCalledWith.map
        (fun p => p.2.closed)) = some true := by
  refine ⟨?_, by decide, by decide, by decide⟩
  decide

/-- C2 counterexample: on the well-formed a.txt/b.png body the clone
variant's Inspect does not return the filename list (its success branch
is a nil dereference), and a file part declaring `filename=""` is
stored as a value field, so its empty-string filename is NOT included
in the output. -/
theorem claim2_counterexample :
    (Middleware.inspectMultipartForm exReq (freshBody exLines)).1 ≠
      .ok ["a.txt", "b.png"]
    ∧ (MultipartInspector.inspectMultipartForm exReq
        (freshBody exLinesEmptyFilename)).1 = .ok [] := by
  refine ⟨by decide, by decide⟩

/-- Every file header stored in the field map, in the map's storage
order.  Go iterates the map in unspecified order, so only
order-insensitive consequences of this list describe the program. -/
def allFiles (m : List (String × List FileHeader)) : List FileHeader :=
  (m.map Prod.snd).flatten

/-- The file headers stored under one field name (the map lookup; Go's
slice for that key). -/
def fieldFiles : List (String × List FileHeader) → String → List FileHeader
  | [], _ => []
  | (k0, vs) :: rest, k => if k0 = k then vs else fieldFiles rest k

/-- The file headers of a part list in arrival order: one header per
part with a non-empty form name and non-empty declared filename. -/
def arrivalFileHeaders (parts : List RawPart) : List FileHeader :=
  parts.filterMap (fun p =>
    if p.formFieldName ≠ "" ∧ p.declaredFilename ≠ "" then
      some ⟨p.declaredFilename, contentBytes p.contentLines⟩
    else none)

/-- The file headers a given field receives, in arrival order. -/
def arrivalFieldHeaders (parts : List RawPart) (k : String) : List FileHeader :=
  parts.filterMap (fun p =>
    if p.formFieldName = k ∧ p.declaredFilename ≠ "" then
      some ⟨p.declaredFilename, contentBytes p.contentLines⟩
    else none)

/-- Appending one header under a key permutes the map's stored headers
by exactly that one header. -/
theorem addEntry_allFiles (m : List (String × List FileHeader)) (k : String) (v : FileHeader) :
    (allFiles (addEntry m k v)).Perm (allFiles m ++ [v]) := by
  induction m with
  | nil => simp [addEntry, allFiles]
  | cons kv rest ih =>
    obtain ⟨k0, vs⟩ := kv
    by_cases h : k0 = k
    · simp only [addEntry, if_pos h]
      have e1 : allFiles ((k0, vs ++ [v]) :: rest) = (vs ++ [v]) ++ allFiles rest := by
        simp [allFiles]
      have e2 : allFiles ((k0, vs) :: rest) = vs ++ allFiles rest := by
        simp [allFiles]
      rw [e1, e2, List.append_assoc, List.append_assoc]
      exact List.Perm.append_left vs List.perm_append_comm
    · simp only [addEntry, if_neg h]
      have e1 : allFiles ((k0, vs) :: addEntry rest k v) =
          vs ++ allFiles (addEntry rest k v) := by simp [allFiles]
      have e2 : allFiles ((k0, vs) :: rest) = vs ++ allFiles rest := by
        simp [allFiles]
      rw [e1, e2, List.append_assoc]
      exact List.Perm.append_left vs ih

/-- Appending one header under a key extends that key's slice at the
end and leaves every other key's slice unchanged. -/
theorem addEntry_fieldFiles (m : List (String × List FileHeader)) (k q : String) (v : FileHeader) :
    fieldFiles (addEntry m k v) q =
      if q = k then fieldFiles m q ++ [v] else fieldFiles m q := by
  induction m with
  | nil =>
    by_cases h : q = k
    · simp [addEntry, fieldFiles, h]
    · simp [addEntry, fieldFiles, h, Ne.symm h]
  | cons kv rest ih =>
    obtain ⟨k0, vs⟩ := kv
    by_cases h0 : k0 = k
    · subst h0
      by_cases hq : q = k0
      · simp [addEntry, fieldFiles, hq]
      · simp [addEntry, fieldFiles, hq, Ne.symm hq]
    · by_cases hq : k0 = q
      · have hqk : ¬(q = k) := fun h => h0 (hq.trans h)
        simp [addEntry, fieldFiles, h0, hq, hqk]
      · simp [addEntry, fieldFiles, h0, hq, ih]

/-- The ReadForm loop, when it succeeds, extends the accumulator's file
map with exactly the file parts: the stored headers are a permutation of
their arrival order, and each field's slice gets its headers appended
in arrival order. -/
theorem readFormLoop_files (parts : List RawPart) :
    ∀ (quota : Nat) (acc f : MultipartForm),
      readFormLoop parts quota acc = .ok f →
      (allFiles f.fileFields).Perm (allFiles acc.fileFields ++ arrivalFileHeaders parts) ∧
      (∀ k, k ≠ "" → fieldFiles f.fileFields k =
        fieldFiles acc.fileFields k ++ arrivalFieldHeaders parts k) := by
  induction parts with
  | nil =>
    intro quota acc f h
    simp only [readFormLoop] at h
    injection h with h
    subst h
    exact ⟨by simp [arrivalFileHeaders], fun k hk => by simp [arrivalFieldHeaders]⟩
  | cons p rest ih =>
    intro quota acc f h
    simp only [readFormLoop] at h
    by_cases hname : p.formFieldName = ""
    · rw [if_pos hname] at h
      obtain ⟨h1, h2⟩ := ih quota acc f h
      refine ⟨?_, fun k hk => ?_⟩
      · have e : arrivalFileHeaders (p :: rest) = arrivalFileHeaders rest := by
          simp [arrivalFileHeaders, hname]
        rw [e]; exact h1
      · have e : arrivalFieldHeaders (p :: rest) k = arrivalFieldHeaders rest k := by
          simp [arrivalFieldHeaders, hname, Ne.symm hk]
        rw [e]; exact h2 k hk
    · rw [if_neg hname] at h
      by_cases hfn : p.declaredFilename = ""
      · rw [if_pos hfn] at h
        by_cases hq : quota < contentBytes p.contentLines
        · rw [if_pos hq] at h
          exact absurd h (by simp)
        · rw [if_neg hq] at h
          obtain ⟨h1, h2⟩ := ih _ _ _ h
          refine ⟨?_, fun k hk => ?_⟩
          · have e : arrivalFileHeaders (p :: rest) = arrivalFileHeaders rest := by
              simp [arrivalFileHeaders, hfn]
            rw [e]; simpa using h1
          · have e : arrivalFieldHeaders (p :: rest) k = arrivalFieldHeaders rest k := by
              simp [arrivalFieldHeaders, hfn]
            rw [e]; simpa using h2 k hk
      · rw [if_neg hfn] at h
        obtain ⟨h1, h2⟩ := ih _ _ _ h
        refine ⟨?_, fun k hk => ?_⟩
        · have e : arrivalFileHeaders (p :: rest) =
              ⟨p.declaredFilename, contentBytes p.contentLines⟩ :: arrivalFileHeaders rest := by
            simp [arrivalFileHeaders, hname, hfn]
          rw [e]
          have h1b : (allFiles f.fileFields).Perm
              (allFiles (addEntry acc.fileFields p.formFieldName
                ⟨p.declaredFilename, contentBytes p.contentLines⟩) ++
               arrivalFileHeaders rest) := by simpa using h1
          refine h1b.trans ?_
          refine List.Perm.trans
            (List.Perm.append_right _ (addEntry_allFiles acc.fileFields p.formFieldName
              ⟨p.declaredFilename, contentBytes p.contentLines⟩)) ?_
          rw [List.append_assoc]
          exact List.Perm.refl _
        · have h2b : fieldFiles f.fileFields k =
              fieldFiles (addEntry acc.fileFields p.formFieldName
                ⟨p.declaredFilename, contentBytes p.contentLines⟩) k ++
              arrivalFieldHeaders rest k := h2 k hk
          rw [addEntry_fieldFiles] at h2b
          by_cases hkn : k = p.formFieldName
          · rw [if_pos hkn] at h2b
            have e : arrivalFieldHeaders (p :: rest) k =
                ⟨p.declaredFilename, contentBytes p.contentLines⟩ :: arrivalFieldHeaders rest k := by
              simp [arrivalFieldHeaders, hkn.symm, hfn]
            rw [e, h2b, List.append_assoc]
            rfl
          · rw [if_neg hkn] at h2b
            have e : arrivalFieldHeaders (p :: rest) k = arrivalFieldHeaders rest k := by
              simp only [arrivalFieldHeaders, List.filterMap_cons]
              rw [if_neg (fun hc => hkn hc.1.symm)]
            rw [e]; exact h2b

/-- The filename list both inspect functions build is the filename
projection of the map's stored headers. -/
theorem formFileNames_eq_allFiles (f : MultipartForm) :
    formFileNames f = (allFiles f.fileFields).map FileHeader.filename := by
  unfold formFileNames allFiles
  rw [List.map_flatten, List.map_map]
  rfl

/-- C2 (amended): for every well-formed multipart body — one whose
boundary is declared, whose framing parses into parts, and whose form
ReadForm accepts — the direct-parse variant's Inspect returns, with no
error, a list holding exactly the declared filenames of the file parts
(parts with a non-empty form name and non-empty filename; a part with
an absent or empty filename is a value field and contributes nothing):
the output is a permutation of the arrival-order filenames, with the
cross-field interleaving left to Go's unspecified map iteration order,
while each single field's stored slice keeps its parts' filenames in
arrival order, duplicates preserved.  On the concrete a.txt/b.png body,
whose two file parts share one field, the output is exactly
["a.txt", "b.png"]; on the interleaved two-field body the output is
some permutation of ["a.txt", "a.txt", "b.png"].  The cloned-parse
variant never returns the list (its success branch is a nil
dereference). -/
theorem claim2_direct_variant_filenames :
    (∀ (r : Request) (b : Body) (boundary : String) (parts : List RawPart) (f : MultipartForm),
      r.multipartForm = none →
      multipartReader r = .ok boundary →
      parseParts boundary (b.lines.drop b.pos) = some parts →
      readForm maxMemoryB parts = .ok f →
      ∃ ns, (MultipartInspector.inspectMultipartForm r b).1 = .ok ns ∧
        ns.Perm ((arrivalFileHeaders parts).map FileHeader.filename) ∧
        (∀ k, k ≠ "" → fieldFiles f.fileFields k = arrivalFieldHeaders parts k))
    ∧ (MultipartInspector.inspectMultipartForm exReq (freshBody exLines)).1 =
        .ok ["a.txt", "b.png"]
    ∧ (∃ ns2, (MultipartInspector.inspectMultipartForm exReq (freshBody exLinesTwoFields)).1 =
          .ok ns2 ∧ ns2.Perm ["a.txt", "a.txt", "b.png"]) := by
  refine ⟨?_, by decide, ?_⟩
  · intro r b boundary parts f h0 h1 h2 h3
    have hp := parseMPF_ok_eq maxMemoryB r b boundary parts f h0 h1 h2 h3
    have hins : (MultipartInspector.inspectMultipartForm r b).1 = .ok (formFileNames f) := by
      unfold MultipartInspector.inspectMultipartForm
      rw [hp]
    have h3l : readFormLoop parts (maxMemoryB + (10 <<< 20)) ⟨[], []⟩ = .ok f := by
      rw [show readFormLoop parts (maxMemoryB + (10 <<< 20)) ⟨[], []⟩ =
          readForm maxMemoryB parts from rfl]
      exact h3
    obtain ⟨hperm, hfield⟩ := readFormLoop_files parts _ ⟨[], []⟩ f h3l
    refine ⟨formFileNames f, hins, ?_, fun k hk => ?_⟩
    · rw [formFileNames_eq_allFiles]
      exact List.Perm.map FileHeader.filename (by simpa [allFiles] using hperm)
    · have := hfield k hk
      simpa [fieldFiles] using this
  · exact ⟨["a.txt", "a.txt", "b.png"], by decide, List.Perm.refl _⟩

/-- Witness for C2 (amended) at the concrete a.txt/b.png body, with the
parsed parts and form spelled out: the output is a permutation of the
arrival-order filenames and the one field's slice is in arrival
order. -/
theorem claim2_direct_variant_filenames_witness :
    ∃ ns, (MultipartInspector.inspectMultipartForm exReq (freshBody exLines)).1 = .ok ns ∧
      ns.Perm ((arrivalFileHeaders
        [⟨["Content-Disposition: form-data; name=\"files\"; filename=\"a.txt\""], ["hello"]⟩,
         ⟨["Content-Disposition: form-data; name=\"files\"; filename=\"b.png\""], ["world"]⟩]).map
        FileHeader.filename) := by
  obtain ⟨ns, hok, hperm, hfield⟩ := claim2_direct_variant_filenames.1
    exReq (freshBody exLines) "BOUND"
    [⟨["Content-Disposition: form-data; name=\"files\"; filename=\"a.txt\""], ["hello"]⟩,
     ⟨["Content-Disposition: form-data; name=\"files\"; filename=\"b.png\""], ["world"]⟩]
    { valueFields := [], fileFields := [("files", [⟨"a.txt", 5⟩, ⟨"b.png", 5⟩])] }
    rfl (by decide) (by decide) (by decide)
  exact ⟨ns, hok, hperm⟩

/-- The logger lines of a ServeHTTP outcome are exactly the lines the
inspection step produced, whichever way the call finishes. -/
theorem finishB_logLines (m : MultipartInspector) (lines : List String) (insp : Bool)
    (r : Request) (b : Body) : (finishB m lines insp r b).logLines = lines := by
  unfold finishB
  cases m.next <;> rfl

/-- C6 counterexample: Provision succeeds with no next handler
configured (and no log file), so a missing Next Handler is NOT a
provisioning-time fault — the stage activates. -/
theorem claim6_counterexample :
    (MultipartInspector.provision
      { next := none, logFile := "", logger := none } true).isOk = true := by
  decide

/-- C6 (amended): a missing next handler is not checked at provisioning
time (Provision succeeds whenever the log file can be set up); instead,
at request time, ServeHTTP with no next handler calls no handler, does
not panic, writes an HTTP 500 response with the body "Missing next
reverse proxy handler" (a reported server-side fault, not a silent
empty response), and returns nil. -/
theorem claim6_no_next_500_at_request_time :
    (∀ (m : MultipartInspector) (openOk : Bool), m.logFile = "" →
      MultipartInspector.provision m openOk = .ok { m with logger := some .toStderr })
    ∧ (∀ (m : MultipartInspector) (r : Request) (b : Body), m.next = none →
        (MultipartInspector.serveHTTP m r b).nextCalledWith = none ∧
        (MultipartInspector.serveHTTP m r b).panicked = false ∧
        (MultipartInspector.serveHTTP m r b).wroteStatus = some 500 ∧
        (MultipartInspector.serveHTTP m r b).wroteBody =
          some "Missing next reverse proxy handler" ∧
        (MultipartInspector.serveHTTP m r b).retNil = true) := by
  constructor
  · intro m openOk h
    simp [MultipartInspector.provision, h]
  · intro m r b hnext
    unfold MultipartInspector.serveHTTP
    by_cases htrig : r.method = "POST" ∧ isMultipart r = true
    · rw [if_pos htrig]
      rcases hins : MultipartInspector.inspectMultipartForm r b with ⟨oc, r2, b2⟩
      cases oc with
      | panicNilDeref =>
        have hnp := inspectB_no_panic r b
        rw [hins] at hnp
        simp at hnp
      | fail e =>
        unfold finishB
        rw [hnext]
        exact ⟨rfl, rfl, rfl, rfl, rfl⟩
      | ok fs =>
        unfold finishB
        rw [hnext]
        exact ⟨rfl, rfl, rfl, rfl, rfl⟩
    · rw [if_neg htrig]
      unfold finishB
      rw [hnext]
      exact ⟨rfl, rfl, rfl, rfl, rfl⟩

/-- Witness for C6 (amended): with no next handler, a concrete GET
request gets the 500 response and no handler call, and Provision had
accepted the configuration. -/
theorem claim6_no_next_500_at_request_time_witness :
    (MultipartInspector.provision miNoNext true = .ok miNoNext) ∧
    ((MultipartInspector.serveHTTP miNoNext getReq (freshBody exLines)).nextCalledWith = none ∧
     (MultipartInspector.serveHTTP miNoNext getReq (freshBody exLines)).wroteStatus = some 500) := by
  have h := claim6_no_next_500_at_request_time
  have h2 := h.2 miNoNext getReq (freshBody exLines) rfl
  exact ⟨h.1 miNoNext true rfl, h2.1, h2.2.2.1⟩

/-- C9 counterexample: a GET request is not inspected, yet the stream
variant still writes the client-address line to the sink — uninspected
requests do produce sink output. -/
theorem claim9_counterexample :
    (Middleware.serveHTTP getReq (freshBody exLines)).inspected = false
    ∧ (Middleware.serveHTTP getReq (freshBody exLines)).sinkOut = "1.2.3.4:5678.\n"
    ∧ (Middleware.serveHTTP getReq (freshBody exLines)).sinkOut ≠ "" := by
  refine ⟨by decide, by decide, by decide⟩

/-- C9 (amended): the log-file variant writes exactly one logger line
per inspected request and none for uninspected requests; the stream
variant writes the client-address line for EVERY request, inspected or
not — for an uninspected request its sink output is exactly that line,
and for an inspected request it is that line followed by exactly one
inspection line when the inspect call returns (on the panic path the
address line alone is written before the panic). -/
theorem claim9_sink_lines :
    (∀ (m : MultipartInspector) (r : Request) (b : Body),
      ((r.method = "POST" ∧ isMultipart r = true) →
        (MultipartInspector.serveHTTP m r b).logLines.length = 1) ∧
      (¬(r.method = "POST" ∧ isMultipart r = true) →
        (MultipartInspector.serveHTTP m r b).logLines = []))
    ∧ (∀ (r : Request) (b : Body),
        ¬(r.method = "POST" ∧ isMultipart r = true) →
        (Middleware.serveHTTP r b).sinkOut = r.remoteAddr ++ ".\n")
    ∧ (∀ (r : Request) (b : Body),
        (r.method = "POST" ∧ isMultipart r = true) →
        ((Middleware.serveHTTP r b).panicked = true ∧
          (Middleware.serveHTTP r b).sinkOut = r.remoteAddr ++ ".\n") ∨
        (∃ msg, (Middleware.serveHTTP r b).panicked = false ∧
          (Middleware.serveHTTP r b).sinkOut = r.remoteAddr ++ ".\n" ++ msg ++ "\n")) := by
  refine ⟨?_, ?_, ?_⟩
  · intro m r b
    constructor
    · intro htrig
      unfold MultipartInspector.serveHTTP
      rw [if_pos htrig]
      rcases hins : MultipartInspector.inspectMultipartForm r b with ⟨oc, r2, b2⟩
      cases oc with
      | panicNilDeref =>
        have hnp := inspectB_no_panic r b
        rw [hins] at hnp
        simp at hnp
      | fail e => rw [finishB_logLines]; rfl
      | ok fs => rw [finishB_logLines]; rfl
    · intro htrig
      unfold MultipartInspector.serveHTTP
      rw [if_neg htrig, finishB_logLines]
  · intro r b htrig
    unfold Middleware.serveHTTP
    rw [if_neg htrig]
  · intro r b htrig
    unfold Middleware.serveHTTP
    rw [if_pos htrig]
    rcases hins : Middleware.inspectMultipartForm r b with ⟨oc, b2⟩
    cases oc with
    | panicNilDeref => exact Or.inl ⟨rfl, rfl⟩
    | fail e =>
      refine Or.inr ⟨"Error inspecting multipart form: " ++ e.msg, rfl, ?_⟩
      exact congrArg (· ++ "\n")
        (String.append_assoc (r.remoteAddr ++ ".\n")
          "Error inspecting multipart form: " e.msg)
    | ok fs =>
      refine Or.inr ⟨"Uploaded files: " ++ goShowStrings fs, rfl, ?_⟩
      exact congrArg (· ++ "\n")
        (String.append_assoc (r.remoteAddr ++ ".\n")
          "Uploaded files: " (goShowStrings fs))

/-- Witness for C9 (amended): one logger line for the inspected
two-file POST, none for the GET, the GET's stream-variant sink output
is just the address line, and the malformed inspected POST gets the
address line plus one inspection line from the stream variant. -/
theorem claim9_sink_lines_witness :
    (MultipartInspector.serveHTTP miWithNext exReq (freshBody exLines)).logLines.length = 1 ∧
    (MultipartInspector.serveHTTP miWithNext getReq (freshBody exLines)).logLines = [] ∧
    (Middleware.serveHTTP getReq (freshBody exLines)).sinkOut = getReq.remoteAddr ++ ".\n" ∧
    (((Middleware.serveHTTP malReq (freshBody malLines)).panicked = true ∧
       (Middleware.serveHTTP malReq (freshBody malLines)).sinkOut =
         malReq.remoteAddr ++ ".\n") ∨
     (∃ msg, (Middleware.serveHTTP malReq (freshBody malLines)).panicked = false ∧
       (Middleware.serveHTTP malReq (freshBody malLines)).sinkOut =
         malReq.remoteAddr ++ ".\n" ++ msg ++ "\n")) :=
  ⟨(claim9_sink_lines.1 miWithNext exReq (freshBody exLines)).1 (by exact ⟨rfl, by decide⟩),
   (claim9_sink_lines.1 miWithNext getReq (freshBody exLines)).2 (by decide),
   claim9_sink_lines.2.1 getReq (freshBody exLines) (by decide),
   claim9_sink_lines.2.2 malReq (freshBody malLines) ⟨rfl, by decide⟩⟩

/-- C8 counterexample: a file-system path is NOT an accepted sink value
in the stream variant (Provision rejects anything but stdout/stderr),
and a configuration with no sink option at all is accepted by the
log-file variant's Caddyfile parser — so neither "a path is a valid
value" nor "a missing sink target is a configuration fault" holds as
claimed. -/
theorem claim8_counterexample :
    Middleware.provision { output := "access.log", w := none } =
      .err (.plain "an output stream is required")
    ∧ MultipartInspector.unmarshalCaddyfile []
        { next := none, logFile := "", logger := none } =
      .ok { next := none, logFile := "", logger := none } := by
  refine ⟨by decide, by decide⟩

/-- C8 (amended): each variant accepts exactly one recognized sink
option, but with different value domains.  Stream variant: one
positional argument (missing argument is an ArgErr fault) whose value
must be "stdout" or "stderr" — any other value, file paths included,
is the provisioning fault "an output stream is required".  Log-file
variant: the one recognized subdirective is log_file with exactly one
path argument; any unrecognized subdirective is the configuration fault
"unknown subdirective"; a missing log_file is not a fault and defaults
the sink to stderr at provisioning. -/
theorem claim8_sink_configuration :
    (∀ s : String, (Middleware.provision { output := s, w := none }).isOk = true ↔
      (s = "stdout" ∨ s = "stderr"))
    ∧ Middleware.unmarshalCaddyfile [] =
        .err (.plain "wrong argument count or unexpected line ending")
    ∧ (∀ (a : String) (rest : List String),
        Middleware.unmarshalCaddyfile (a :: rest) = .ok { output := a, w := none })
    ∧ (∀ (k : String) (args : List String) (m : MultipartInspector), k ≠ "log_file" →
        MultipartInspector.unmarshalCaddyfile [(k, args)] m =
          .err (.plain ("unknown subdirective \x27" ++ k ++ "\x27")))
    ∧ (∀ (p : String) (m : MultipartInspector),
        MultipartInspector.unmarshalCaddyfile [("log_file", [p])] m =
          .ok { m with logFile := p })
    ∧ (∀ (m : MultipartInspector) (openOk : Bool), m.logFile = "" →
        MultipartInspector.provision m openOk = .ok { m with logger := some .toStderr }) := by
  refine ⟨?_, rfl, fun a rest => rfl, ?_, ?_, ?_⟩
  · intro s
    unfold Middleware.provision
    split
    · next h => simp at h; simp [GoResult.isOk, h]
    · next h => simp at h; simp [GoResult.isOk, h]
    · next h1 h2 => simp at h1 h2; simp [GoResult.isOk, h1, h2]
  · intro k args m hk
    unfold MultipartInspector.unmarshalCaddyfile
    rw [if_neg hk]
  · intro p m
    unfold MultipartInspector.unmarshalCaddyfile
    rw [if_pos rfl]
    rfl
  · intro m openOk h
    simp [MultipartInspector.provision, h]

/-- Witness for C8 (amended) at concrete configurations: "stdout" is
accepted, "access.log" is rejected, and an unknown subdirective is a
fault. -/
theorem claim8_sink_configuration_witness :
    (Middleware.provision { output := "stdout", w := none }).isOk = true ∧
    (Middleware.provision { output := "access.log", w := none }).isOk = false ∧
    MultipartInspector.unmarshalCaddyfile [("bogus", [])] miNoNext =
      .err (.plain ("unknown subdirective \x27" ++ "bogus" ++ "\x27")) := by
  refine ⟨(claim8_sink_configuration.1 "stdout").mpr (Or.inl rfl), ?_, ?_⟩
  · have h := (claim8_sink_configuration.1 "access.log").not
    have : ¬("access.log" = "stdout" ∨ "access.log" = "stderr") := by decide
    cases hv : (Middleware.provision { output := "access.log", w := none }).isOk with
    | false => rfl
    | true => exact absurd ((claim8_sink_configuration.1 "access.log").mp hv) this
  · exact claim8_sink_configuration.2.2.2.1 "bogus" [] miNoNext (by decide)

/-- A 40 MiB single-line file content, larger than the direct variant's
32 MiB limit. -/
def bigFileLine : String := String.mk (List.replicate (40 <<< 20) 'x')

/-- A well-formed body whose single FILE part carries `bigFileLine`. -/
def bigFileBodyLines : List String :=
  ["--BOUND",
   "Content-Disposition: form-data; name=\"f\"; filename=\"big.bin\"",
   "",
   bigFileLine,
   "--BOUND--"]

/-- A 120 MiB single-line value content, larger than both variants'
limits plus the reserved 10 MiB. -/
def bigValueLine : String := String.mk (List.replicate (120 <<< 20) 'x')

/-- A well-formed body whose single VALUE part (no filename) carries
`bigValueLine`. -/
def bigValueBodyLines : List String :=
  ["--BOUND",
   "Content-Disposition: form-data; name=\"v\"",
   "",
   bigValueLine,
   "--BOUND--"]

/-- Total content bytes of the value (non-file) parts, the quantity
ReadForm's quota limits. -/
def valuePartBytes : List RawPart → Nat
  | [] => 0
  | p :: rest =>
    (if p.formFieldName ≠ "" ∧ p.declaredFilename = "" then contentBytes p.contentLines else 0)
      + valuePartBytes rest

/-- When the value parts' bytes exceed the quota, the ReadForm loop
returns ErrMessageTooLarge. -/
theorem readFormLoop_too_large (parts : List RawPart) :
    ∀ (quota : Nat) (acc : MultipartForm), quota < valuePartBytes parts →
      readFormLoop parts quota acc = .err .messageTooLarge := by
  induction parts with
  | nil => intro quota acc h; simp [valuePartBytes] at h
  | cons p rest ih =>
    intro quota acc h
    simp only [readFormLoop]
    by_cases hname : p.formFieldName = ""
    · rw [if_pos hname]
      apply ih
      have hv : valuePartBytes (p :: rest) = valuePartBytes rest := by
        simp only [valuePartBytes]
        rw [if_neg (by simp [hname])]
        simp
      rwa [hv] at h
    · rw [if_neg hname]
      by_cases hfn : p.declaredFilename = ""
      · rw [if_pos hfn]
        have hv : valuePartBytes (p :: rest) =
            contentBytes p.contentLines + valuePartBytes rest := by
          simp only [valuePartBytes]
          rw [if_pos ⟨hname, hfn⟩]
        rw [hv] at h
        by_cases hq : quota < contentBytes p.contentLines
        · rw [if_pos hq]
        · rw [if_neg hq]
          apply ih
          omega
      · rw [if_neg hfn]
        apply ih
        have hv : valuePartBytes (p :: rest) = valuePartBytes rest := by
          simp only [valuePartBytes]
          rw [if_neg (by simp [hfn])]
          simp
        rwa [hv] at h

/-- With fresh form state, a ReadForm failure surfaces as
ParseMultipartForm's error, with the stream consumed. -/
theorem parseMPF_form_err (mm : Nat) (r : Request) (b : Body) (boundary : String)
    (parts : List RawPart) (e : GoError)
    (hfresh : r.multipartForm = none)
    (hbd : multipartReader r = .ok boundary)
    (hparts : parseParts boundary (b.lines.drop b.pos) = some parts)
    (hrf : readForm mm parts = .err e) :
    parseMultipartForm mm r b = ⟨r, consumedBody b, some e⟩ := by
  unfold parseMultipartForm
  simp [hfresh, hbd, hparts, hrf]

/-- The length of a packed character list is the list's length. -/
theorem strLen_mk (l : List Char) : (String.mk l).length = l.length := rfl

/-- A single content line contributes exactly its own bytes. -/
theorem contentBytes_singleton (l : String) : contentBytes [l] = l.length := by
  simp [contentBytes]

/-- A lone value part's quota-relevant bytes are its content bytes. -/
theorem valuePartBytes_single (hs c : List String)
    (h1 : RawPart.formFieldName ⟨hs, c⟩ ≠ "")
    (h2 : RawPart.declaredFilename ⟨hs, c⟩ = "") :
    valuePartBytes [⟨hs, c⟩] = contentBytes c := by
  simp [valuePartBytes, h1, h2]

/-- C7 counterexample: a body whose single file part is 40 MiB — well
above the direct variant's 32 MiB limit — parses WITHOUT error (file
bytes beyond the memory limit go to a temp file), returning the
filename; exceeding the configured size limit is not, in general, a
parse error. -/
theorem claim7_counterexample :
    maxMemoryB < contentBytes [bigFileLine]
    ∧ (MultipartInspector.inspectMultipartForm exReq (freshBody bigFileBodyLines)).1 =
        .ok ["big.bin"] := by
  constructor
  · have h2 : bigFileLine.length = (40:Nat) <<< 20 := by
      rw [show bigFileLine = String.mk (List.replicate ((40:Nat) <<< 20) 'x') from rfl,
          strLen_mk, List.length_replicate]
    rw [contentBytes_singleton, h2]
    decide
  · rfl

/-- C7 (amended): what the configured limit bounds is the combined
non-file (value) field data, with 10 MiB of slack: when the value
parts' bytes exceed maxMemory + 10 MiB, ParseMultipartForm fails with
ErrMessageTooLarge and Inspect returns the wrapped parse error in
either variant — no unbounded buffering of value data; file bytes
above the limit are spooled to disk without error. -/
theorem claim7_oversize_value_error
    (r : Request) (b : Body) (boundary : String) (parts : List RawPart)
    (hfresh : r.multipartForm = none)
    (hbd : multipartReader r = .ok boundary)
    (hparts : parseParts boundary (b.lines.drop b.pos) = some parts) :
    ((maxMemoryB + (10 <<< 20) < valuePartBytes parts →
      (MultipartInspector.inspectMultipartForm r b).1 =
        .fail (.wrap "error parsing multipart form" .messageTooLarge))
    ∧ (maxMemoryA + (10 <<< 20) < valuePartBytes parts →
      (Middleware.inspectMultipartForm r b).1 =
        .fail (.wrap "error parsing multipart form" .messageTooLarge))) := by
  constructor
  · intro hq
    have hrf : readForm maxMemoryB parts = .err .messageTooLarge := by
      unfold readForm
      exact readFormLoop_too_large parts _ _ hq
    have hp := parseMPF_form_err maxMemoryB r b boundary parts .messageTooLarge
      hfresh hbd hparts hrf
    unfold MultipartInspector.inspectMultipartForm
    rw [hp]
  · intro hq
    have hrf : readForm maxMemoryA parts = .err .messageTooLarge := by
      unfold readForm
      exact readFormLoop_too_large parts _ _ hq
    have hp := parseMPF_form_err maxMemoryA r b boundary parts .messageTooLarge
      hfresh hbd hparts hrf
    unfold Middleware.inspectMultipartForm
    rw [hp]

/-- Witness for C7 (amended): a 120 MiB value part makes both
variants' Inspect fail with the wrapped ErrMessageTooLarge. -/
theorem claim7_oversize_value_error_witness :
    (MultipartInspector.inspectMultipartForm exReq (freshBody bigValueBodyLines)).1 =
      .fail (.wrap "error parsing multipart form" .messageTooLarge) ∧
    (Middleware.inspectMultipartForm exReq (freshBody bigValueBodyLines)).1 =
      .fail (.wrap "error parsing multipart form" .messageTooLarge) := by
  have e3 : bigValueLine.length = (120:Nat) <<< 20 := by
    rw [show bigValueLine = String.mk (List.replicate ((120:Nat) <<< 20) 'x') from rfl,
        strLen_mk, List.length_replicate]
  have hval : valuePartBytes
      [⟨["Content-Disposition: form-data; name=\"v\""], [bigValueLine]⟩] = (120:Nat) <<< 20 := by
    rw [valuePartBytes_single _ _ (by decide) (by decide), contentBytes_singleton, e3]
  have h := claim7_oversize_value_error exReq (freshBody bigValueBodyLines) "BOUND"
    [⟨["Content-Disposition: form-data; name=\"v\""], [bigValueLine]⟩]
    rfl (by decide) rfl
  exact ⟨h.1 (by rw [hval]; decide), h.2 (by rw [hval]; decide)⟩
